import Mathlib

/-!
Verification of the structure-aware chunking pipeline and the hybrid
retrieval engine of the churn-app repository.

The definitions below are a shallow embedding of the Python sources:
* `app/services/document_processor.py` (item classification, hierarchy
  tracking, page/section grouping, chunk building),
* `app/services/qdrant_service.py` (store adapter `upsert_chunks`,
  `search_context`, `hybrid_search`),
* `app/services/llm_service.py` (`generate_section_context`).

Python strings are modelled by `String`, Python dicts with `Nat` keys by
association lists, float scores by `ℚ`, and the external collaborators
(document conversion, LLM annotators, vector store) by explicit inputs.
-/

namespace Churn

/-! ### Python-style string primitives

`str.lower`, `str.split()` (whitespace runs, empty pieces dropped) and
`str.strip()` are re-implemented structurally so that concrete instances
evaluate inside the kernel. -/

/-- Model of Python `str.lower()`. -/
def pyLower (s : String) : String := String.mk (s.data.map Char.toLower)

/-- Worker for `pySplit`: `acc` holds the current word, reversed. -/
def splitWSAux : List Char → List Char → List String
  | [], acc => if acc = [] then [] else [String.mk acc.reverse]
  | c :: cs, acc =>
    if c.isWhitespace then
      (if acc = [] then [] else [String.mk acc.reverse]) ++ splitWSAux cs []
    else splitWSAux cs (c :: acc)

/-- Model of Python `str.split()` with no argument: split on whitespace
runs, dropping empty pieces. -/
def pySplit (s : String) : List String := splitWSAux s.data []

/-- Drop trailing whitespace characters. -/
def dropTrailWS (l : List Char) : List Char :=
  (l.reverse.dropWhile Char.isWhitespace).reverse

/-- Model of Python `str.strip()`. -/
def pyStrip (s : String) : String :=
  String.mk (dropTrailWS (s.data.dropWhile Char.isWhitespace))

/-! ### Data model: parsed items (document-conversion collaborator) -/

/-- The Docling item labels distinguished by `_extract_items_by_page`.
`contentLabel` stands for the whole `content_labels` set (paragraph,
text, list item, caption, footnote). -/
inductive DocLabel
  | title
  | sectionHeader
  | contentLabel
  | table
  | other
deriving DecidableEq

/-- One item of the ordered stream produced by the external document
converter. `headerLevel` models `getattr(item, 'level', 1)` (only read
for section headers); `page` models the first provenance `page_no`. -/
structure ParsedItem where
  label : DocLabel
  text : String
  headerLevel : Nat
  page : Option Nat
deriving DecidableEq

/-- `current_hierarchy`: a Python dict `level -> title`, modelled as an
association list. -/
abbrev Hierarchy := List (Nat × String)

/-- Title branch of `_extract_items_by_page`: a non-empty title resets
the hierarchy to `{0: title_text}`. -/
def applyTitle (hier : Hierarchy) (t : String) : Hierarchy :=
  if t = "" then hier else [(0, t)]

/-- Section-header branch of `_extract_items_by_page`: a non-empty
header at level `L` keeps only the entries with level `< L` and then
inserts `L -> header_text`. -/
def applyHeader (hier : Hierarchy) (L : Nat) (t : String) : Hierarchy :=
  if t = "" then hier else hier.filter (fun p => p.1 < L) ++ [(L, t)]

/-- A classified item (`item_data` dict) as appended to the per-page
lists by `_extract_items_by_page`. -/
structure ItemData where
  itemType : String
  text : String
  hierarchy : Hierarchy
  page : Nat
  headerLevel : Option Nat
deriving DecidableEq

/-- Page number of an item: first provenance page, defaulting to 1. -/
def pageOf (it : ParsedItem) : Nat := it.page.getD 1

/-- One step of the classification loop of `_extract_items_by_page`:
returns the updated hierarchy and the classified `item_data`. The
`hierarchy` field of the result is the snapshot copy stored in
`item_data["section_hierarchy"]` (the updated one for non-empty titles
and headers, the pre-existing one otherwise). -/
def classifyStep (hier : Hierarchy) (it : ParsedItem) : Hierarchy × ItemData :=
  match it.label with
  | .title =>
    let h := applyTitle hier it.text
    (h, { itemType := "title", text := it.text, hierarchy := h,
          page := pageOf it, headerLevel := none })
  | .sectionHeader =>
    let h := applyHeader hier it.headerLevel it.text
    (h, { itemType := "section_header", text := it.text, hierarchy := h,
          page := pageOf it, headerLevel := some it.headerLevel })
  | .contentLabel =>
    (hier, { itemType := "content", text := it.text, hierarchy := hier,
             page := pageOf it, headerLevel := none })
  | .table =>
    (hier, { itemType := "table", text := it.text, hierarchy := hier,
             page := pageOf it, headerLevel := none })
  | .other =>
    (hier, { itemType := if it.text = "" then "" else "other_content",
             text := it.text, hierarchy := hier,
             page := pageOf it, headerLevel := none })

/-- The classification loop: items with empty text are dropped, the
hierarchy is threaded through in document order. -/
def extractGo (hier : Hierarchy) : List ParsedItem → List ItemData
  | [] => []
  | it :: rest =>
    let s := classifyStep hier it
    if s.2.text = "" then extractGo s.1 rest
    else s.2 :: extractGo s.1 rest

/-- `_extract_items_by_page`, flattened: the per-page dict is recovered
through `itemsOnPage` and `sortedPages` (per-page order is document
order, as in the `defaultdict(list)` of the source). -/
def extractItemsByPage (items : List ParsedItem) : List ItemData :=
  extractGo [] items

/-- The bucket `pages[p]` of the page dict. -/
def itemsOnPage (items : List ItemData) (p : Nat) : List ItemData :=
  items.filter (fun d => d.page = p)

/-- `sorted(pages_data.keys())`: the distinct page numbers, ascending. -/
def sortedPages (items : List ItemData) : List Nat :=
  List.insertionSort (· ≤ ·) ((items.map (·.page)).dedup)

/-! ### Page/section grouping (`_group_items_by_section`) -/

/-- `hierarchy.get(0, hierarchy.get(min_level, ""))` guarded by
`if hierarchy:`, as computed in the header and content branches. -/
def chapterNameOf (h : Hierarchy) : String :=
  match h.lookup 0 with
  | some v => v
  | none =>
    match h.map Prod.fst with
    | [] => ""
    | k :: ks => (h.lookup (ks.foldl Nat.min k)).getD ""

/-- The mutable `current_section` dict while scanning a page. -/
structure SectionAcc where
  hierarchy : Hierarchy
  contentParts : List String
  level : Nat
  sectionName : String
  chapterName : String

/-- An emitted section: `current_section` after the `"content"` key is
filled with the joined parts. -/
structure SectionBlock where
  hierarchy : Hierarchy
  content : String
  level : Nat
  sectionName : String
  chapterName : String
deriving DecidableEq

/-- Closing a section: `"\n\n".join(content_parts)`. -/
def flushSection (s : SectionAcc) : SectionBlock :=
  { hierarchy := s.hierarchy,
    content := String.intercalate "\n\n" s.contentParts,
    level := s.level, sectionName := s.sectionName,
    chapterName := s.chapterName }

/-- The loop body of `_group_items_by_section`. -/
def groupGo (cur : SectionAcc) : List ItemData → List SectionBlock
  | [] => if cur.contentParts = [] then [] else [flushSection cur]
  | d :: rest =>
    if d.itemType = "title" ∨ d.itemType = "section_header" then
      (if cur.contentParts = [] then [] else [flushSection cur]) ++
        groupGo
          { hierarchy := d.hierarchy,
            contentParts := if d.text = "" then [] else [d.text],
            level := d.headerLevel.getD 0,
            sectionName := d.text,
            chapterName := chapterNameOf d.hierarchy } rest
    else if d.itemType = "content" ∨ d.itemType = "table" ∨
        d.itemType = "other_content" then
      if d.text = "" then groupGo cur rest
      else
        let h1 := if cur.hierarchy = [] then d.hierarchy else cur.hierarchy
        groupGo
          { hierarchy := h1,
            contentParts := cur.contentParts ++ [d.text],
            level := cur.level,
            sectionName := cur.sectionName,
            chapterName :=
              if cur.chapterName = "" ∧ h1 ≠ [] then chapterNameOf h1
              else cur.chapterName } rest
    else groupGo cur rest

/-- The initial `current_section` of a page, seeded from the first
item's hierarchy; its chapter name is `first_item_hierarchy.get(0, "")`. -/
def initSection (pageItems : List ItemData) (page : Nat) : SectionAcc :=
  let firstHier := match pageItems with | [] => [] | d :: _ => d.hierarchy
  { hierarchy := firstHier, contentParts := [], level := 0,
    sectionName := "Strona " ++ toString page,
    chapterName := (firstHier.lookup 0).getD "" }

/-- `_group_items_by_section`: a page with no items yields no sections. -/
def groupItemsBySection (pageItems : List ItemData) (page : Nat) :
    List SectionBlock :=
  if pageItems = [] then [] else groupGo (initSection pageItems page) pageItems

/-! ### Chunk building (`_create_chunks_from_pages`) -/

/-- `sorted(hierarchy.keys())`. -/
def sortedKeys (h : Hierarchy) : List Nat :=
  List.insertionSort (· ≤ ·) ((h.map Prod.fst).dedup)

/-- `_build_section_title`. -/
def buildSectionTitle (h : Hierarchy) : String :=
  if h = [] then "Dokument"
  else String.intercalate " > "
    ((sortedKeys h).map (fun k => (h.lookup k).getD ""))

/-- `_build_parent_context`: join all but the deepest level. -/
def buildParentContext (h : Hierarchy) : String :=
  if h = [] ∨ h.length ≤ 1 then ""
  else String.intercalate " > "
    ((sortedKeys h).dropLast.map (fun k => (h.lookup k).getD ""))

/-- `generate_section_context` of `llm_service.py`: blank content is not
sent to the LLM at all; a failing LLM call degrades to the empty string;
a successful call returns the model's reply. The outcome of the external
LLM call is passed in as an `Except` value. -/
def generateSectionContext (content : String)
    (llmResult : Except String String) : String :=
  if pyStrip content = "" then ""
  else
    match llmResult with
    | .ok reply => reply
    | .error _ => ""

/-- Chunk metadata, as assembled in `_create_chunks_from_pages`. -/
structure ChunkMeta where
  sectionName : String
  chapterName : String
  parentContext : String
  sectionLevel : Nat
  context : String
  filename : String
  pageNumber : Nat
  pageNumbers : List Nat
  hierarchy : Hierarchy
deriving DecidableEq

/-- `DocumentChunk` of `document_processor.py`. -/
structure DocumentChunk where
  content : String
  sectionTitle : String
  chunkIndex : Nat
  metadata : ChunkMeta
deriving DecidableEq

/-- The `full_context` accumulation of `_create_chunks_from_pages`:
start from `""`, overwrite with the parent-chapter line when the parent
context is non-empty, then append the section-context line when the
generated context is non-empty. -/
def fullContextOf (parentContext sectionContext : String) : String :=
  let fc := if parentContext ≠ ""
    then "Rozdział nadrzędny: " ++ parentContext ++ "\n" else ""
  if sectionContext ≠ "" then fc ++ ("Kontekst sekcji: " ++ sectionContext)
  else fc

/-- Building one `DocumentChunk` from a section block. `ctxAnn` is the
total behaviour of `_generate_section_context` (external annotator
already wrapped by its degradation logic). -/
def buildChunk (filename : String) (ctxAnn : String → String)
    (page idx : Nat) (s : SectionBlock) : DocumentChunk :=
  { content := s.content,
    sectionTitle := buildSectionTitle s.hierarchy,
    chunkIndex := idx,
    metadata := {
      sectionName := s.sectionName,
      chapterName := s.chapterName,
      parentContext := buildParentContext s.hierarchy,
      sectionLevel := s.level,
      context := fullContextOf (buildParentContext s.hierarchy)
        (ctxAnn s.content),
      filename := filename,
      pageNumber := page,
      pageNumbers := [page],
      hierarchy := s.hierarchy } }

/-- The inner loop over a page's sections: blank-content sections are
skipped, the chunk index is threaded through. -/
def chunksOfSections (filename : String) (ctxAnn : String → String)
    (page : Nat) : List SectionBlock → Nat → List DocumentChunk × Nat
  | [], idx => ([], idx)
  | s :: rest, idx =>
    if pyStrip s.content = "" then chunksOfSections filename ctxAnn page rest idx
    else
      let r := chunksOfSections filename ctxAnn page rest (idx + 1)
      (buildChunk filename ctxAnn page idx s :: r.1, r.2)

/-- The outer loop of `_create_chunks_from_pages` over the sorted pages. -/
def chunksGo (filename : String) (ctxAnn : String → String)
    (items : List ItemData) : List Nat → Nat → List DocumentChunk
  | [], _ => []
  | p :: ps, idx =>
    let r := chunksOfSections filename ctxAnn p
      (groupItemsBySection (itemsOnPage items p) p) idx
    r.1 ++ chunksGo filename ctxAnn items ps r.2

/-- `_create_chunks_from_pages`. -/
def createChunksFromPages (items : List ItemData) (filename : String)
    (ctxAnn : String → String) : List DocumentChunk :=
  chunksGo filename ctxAnn items (sortedPages items) 0

/-- `process_document`: extraction followed by chunk creation. -/
def processDocument (items : List ParsedItem) (filename : String)
    (ctxAnn : String → String) : List DocumentChunk :=
  createChunksFromPages (extractItemsByPage items) filename ctxAnn

/-! ### Store adapter (`qdrant_service.upsert_chunks`) -/

/-- One record as handed to `client.add`: the embedded document text and
the metadata dict (the chunk metadata plus the keys added in the loop). -/
structure StoredRecord where
  document : String
  meta : ChunkMeta
  jobId : String
  fileId : String
  secTitle : String
  index : Nat
  fileName : String
  pageNumbers : List Nat
  keywords : List String
deriving DecidableEq

/-- The embedding text: context-prefixed when a context exists. -/
def combinedContent (context content : String) : String :=
  if context ≠ "" then "Context: " ++ context ++ "\n\nContent: " ++ content
  else content

/-- The loop body of `upsert_chunks` for one chunk. `kwAnn` is the total
behaviour of `generate_keywords` (external annotator already wrapped by
its degradation logic). -/
def prepareRecord (jobId : String) (kwAnn : String → List String)
    (c : DocumentChunk) : StoredRecord :=
  { document := combinedContent c.metadata.context c.content,
    meta := c.metadata,
    jobId := jobId,
    fileId := if c.metadata.filename ≠ ""
      then jobId ++ "_" ++ c.metadata.filename else jobId,
    secTitle := c.sectionTitle,
    index := c.chunkIndex,
    fileName := c.metadata.filename,
    pageNumbers := c.metadata.pageNumbers,
    keywords := kwAnn c.content }

/-- Observable outcome of one `upsert_chunks` call: the collection
contents afterwards, the inputs passed to the keyword annotator, and
whether `client.add` was invoked. -/
structure UpsertOutcome where
  store : List StoredRecord
  annInputs : List String
  addCalled : Bool
deriving DecidableEq

/-- `upsert_chunks`: an empty chunk list returns immediately; otherwise
every chunk is prepared and the whole batch is added to the collection. -/
def upsertChunks (jobId : String) (chunks : List DocumentChunk)
    (kwAnn : String → List String) (store : List StoredRecord) :
    UpsertOutcome :=
  if chunks = [] then { store := store, annInputs := [], addCalled := false }
  else
    { store := store ++ chunks.map (prepareRecord jobId kwAnn),
      annInputs := chunks.map (·.content),
      addCalled := true }

/-! ### Hybrid retriever (`qdrant_service.search_context` /
`hybrid_search`)

The vector store's reply to the similarity query is passed in as a list
of hits; similarity scores are modelled by `ℚ`. -/

/-- One hit of the vector store reply, with the metadata fields the
retriever reads (each `metadata.get` default applied). -/
structure Hit where
  document : String
  context : String
  secTitle : String
  keywords : List String
  fileName : String
  pageNumbers : List Nat
  score : ℚ
deriving DecidableEq

/-- `set(query.lower().split())`, as a duplicate-free word list. -/
def queryWordSet (q : String) : List String := (pySplit (pyLower q)).dedup

/-- `len(query_words & hit_keywords)` where
`hit_keywords = set(kw.lower() for kw in keywords)`. -/
def keywordOverlap (qws : List String) (h : Hit) : Nat :=
  qws.countP (fun w => (h.keywords.map pyLower).contains w)

/-- `len(query_words & context_words)` where
`context_words = set(context.lower().split())`. -/
def contextOverlap (qws : List String) (h : Hit) : Nat :=
  qws.countP (fun w => (pySplit (pyLower h.context)).contains w)

/-- The re-ranked score of a hit:
`base_score + (keyword_overlap + context_overlap * 0.5) * keyword_boost`. -/
def finalScore (q : String) (keywordBoost : ℚ) (h : Hit) : ℚ :=
  h.score +
    ((keywordOverlap (queryWordSet q) h : ℚ) +
      (contextOverlap (queryWordSet q) h : ℚ) * (1 / 2)) * keywordBoost

/-- `', '.join(str(p) for p in page_numbers) if page_numbers else 'unknown'`. -/
def pagesStr (pageNumbers : List Nat) : String :=
  if pageNumbers = [] then "unknown"
  else String.intercalate ", " (pageNumbers.map toString)

/-- The per-hit block shared by `search_context` and `hybrid_search`. -/
def renderHit (h : Hit) : String :=
  "File: " ++ h.fileName ++ "\n" ++
  "Pages: " ++ pagesStr h.pageNumbers ++ "\n" ++
  "Section: " ++ h.secTitle ++ "\n" ++
  (if h.keywords ≠ []
    then "Keywords: " ++ String.intercalate ", " h.keywords ++ "\n" else "") ++
  (if h.context ≠ "" then "Context: " ++ h.context ++ "\n" else "") ++
  "Content: " ++ h.document

/-- `search_context` on the hits returned by the store: the joined
per-hit blocks (the empty string for zero hits). -/
def searchContext (hits : List Hit) : String :=
  String.intercalate "\n\n---\n\n" (hits.map renderHit)

/-- `', '.join(...) if src['pages'] else 'nieznane'`. -/
def srcPagesStr (pageNumbers : List Nat) : String :=
  if pageNumbers = [] then "nieznane"
  else String.intercalate ", " (pageNumbers.map toString)

/-- The numbered source list of the `hybrid_search` summary block. -/
def sourceLines (top : List (ℚ × Hit)) : String :=
  String.join (top.enum.map (fun e =>
    "  " ++ toString (e.1 + 1) ++ ". Plik: " ++ e.2.2.fileName ++
    " - strony: " ++ srcPagesStr e.2.2.pageNumbers ++ "\n"))

/-- The leading summary block of `hybrid_search`. -/
def sourcesSummary (top : List (ℚ × Hit)) : String :=
  "## Podsumowanie znalezionych źródeł (znaleziono " ++
    toString top.length ++ " wyników):\n" ++
  (if top.length > 1 then
    "UWAGA: Znaleziono informacje w WIELU miejscach! Musisz poinformować użytkownika o wszystkich lokalizacjach.\n"
   else "") ++
  "Lista znalezionych źródeł:\n" ++
  sourceLines top ++
  "\nSzczegółowe konteksty poniżej:\n\n"

/-- `hybrid_search` on the candidate hits returned by the over-fetching
similarity query: score, sort descending (stably, as Python's
`list.sort(reverse=True)`), keep `limit`, and render the summary block
followed by the per-hit blocks. -/
def hybridSearch (q : String) (limit : Nat) (keywordBoost : ℚ)
    (hits : List Hit) : String :=
  let scored := hits.map (fun h => (finalScore q keywordBoost h, h))
  let top := (List.insertionSort (fun a b : ℚ × Hit => b.1 ≤ a.1) scored).take limit
  sourcesSummary top ++
    String.intercalate "\n\n---\n\n" (top.map (fun sh => renderHit sh.2))

/-! ### Auxiliary definitions for the statements -/

/-- The annotator-independent core of a chunk: content, section title,
chunk index, parent context and page number. -/
def chunkCore (c : DocumentChunk) : String × String × Nat × String × Nat :=
  (c.content, c.sectionTitle, c.chunkIndex, c.metadata.parentContext,
    c.metadata.pageNumber)

/-- The spec's reading of a hierarchy: its entries sorted by level
ascending (stable sort on the level). -/
def hierarchyEntriesAsc (h : Hierarchy) : Hierarchy :=
  List.insertionSort (fun p q : Nat × String => p.1 ≤ q.1) h

/-! ### Concrete inputs used by witnesses and counterexamples -/

/-- The two-page scenario of the spec: page 1 has a title "Intro" and
one paragraph, page 2 has a level-1 header "Details" and two
paragraphs. -/
def exItems : List ParsedItem :=
  [ { label := .title, text := "Intro", headerLevel := 1, page := some 1 },
    { label := .contentLabel, text := "P1", headerLevel := 1, page := some 1 },
    { label := .sectionHeader, text := "Details", headerLevel := 1, page := some 2 },
    { label := .contentLabel, text := "P2", headerLevel := 1, page := some 2 },
    { label := .contentLabel, text := "P3", headerLevel := 1, page := some 2 } ]

/-- An annotator that returns a fixed non-empty context. -/
def exCtxAnn : String → String := fun _ => "CTX"

/-- A keyword annotator that records its input. -/
def exKwAnn : String → List String := fun s => [s]

/-- Fallback chunk for `List.getD`. -/
def emptyChunk : DocumentChunk :=
  { content := "", sectionTitle := "", chunkIndex := 0,
    metadata := {
      sectionName := ""
      chapterName := ""
      parentContext := ""
      sectionLevel := 0
      context := ""
      filename := ""
      pageNumber := 0
      pageNumbers := []
      hierarchy := [] } }

/-- The second chunk of the two-page scenario. -/
def exChunk1 : DocumentChunk :=
  (processDocument exItems "doc.pdf" exCtxAnn).getD 1 emptyChunk

/-- The example hierarchy of the spec. -/
def exHier : Hierarchy := [(0, "Doc"), (1, "Ch1"), (2, "Sec1")]

/-- A hit with one keyword matching the example query and no context. -/
def hitA : Hit :=
  { document := "docA", context := "", secTitle := "s", keywords := ["alpha"],
    fileName := "f", pageNumbers := [1], score := 1/2 }

/-- A hit with no matching keyword but four matching context words. -/
def hitB : Hit :=
  { document := "docB", context := "beta gamma delta epsilon", secTitle := "s",
    keywords := [], fileName := "f", pageNumbers := [1], score := 1/2 }

/-- A hit with no matching keyword and no context. -/
def hitC : Hit :=
  { document := "docC", context := "", secTitle := "s", keywords := [],
    fileName := "f", pageNumbers := [1], score := 1/2 }

/-- The example query. -/
def exQuery : String := "alpha beta gamma delta epsilon"

/-! ### Helper lemmas -/

/-- The annotator-independent chunk core is the same for any two
context annotators, section by section, with matching final indices. -/
theorem chunksOfSections_core (f : String) (a b : String → String) (p : Nat) :
    ∀ (secs : List SectionBlock) (idx : Nat),
      (chunksOfSections f a p secs idx).1.map chunkCore =
        (chunksOfSections f b p secs idx).1.map chunkCore ∧
      (chunksOfSections f a p secs idx).2 = (chunksOfSections f b p secs idx).2
  | [], _ => ⟨rfl, rfl⟩
  | s :: rest, idx => by
    by_cases hs : pyStrip s.content = ""
    · simpa [chunksOfSections, hs] using chunksOfSections_core f a b p rest idx
    · have ih := chunksOfSections_core f a b p rest (idx + 1)
      simp only [chunksOfSections, if_neg hs, List.map_cons]
      have hhead : chunkCore (buildChunk f a p idx s) =
          chunkCore (buildChunk f b p idx s) := rfl
      exact ⟨by rw [hhead, ih.1], ih.2⟩

/-- Chunk cores do not depend on the context annotator, page loop. -/
theorem chunksGo_core (f : String) (a b : String → String)
    (items : List ItemData) :
    ∀ (pages : List Nat) (idx : Nat),
      (chunksGo f a items pages idx).map chunkCore =
        (chunksGo f b items pages idx).map chunkCore
  | [], _ => rfl
  | p :: ps, idx => by
    have hsec := chunksOfSections_core f a b p
      (groupItemsBySection (itemsOnPage items p) p) idx
    simp only [chunksGo, List.map_append]
    rw [hsec.1, hsec.2, chunksGo_core f a b items ps _]

/-- Chunk cores do not depend on the context annotator. -/
theorem createChunks_core (items : List ItemData) (f : String)
    (a b : String → String) :
    (createChunksFromPages items f a).map chunkCore =
      (createChunksFromPages items f b).map chunkCore :=
  chunksGo_core f a b items (sortedPages items) 0

/-- Looking up in the filtered hierarchy: keys below the cutoff are
found as before, keys at or above it are gone. -/
theorem lookup_filter_lt (h : Hierarchy) (L k : Nat) :
    (h.filter (fun p => p.1 < L)).lookup k =
      if k < L then h.lookup k else none := by
  induction h with
  | nil => simp
  | cons p tl ih =>
    obtain ⟨a, v⟩ := p
    by_cases hk : k = a
    · subst hk
      by_cases haL : k < L
      · simp [List.filter_cons, haL, List.lookup_cons]
      · simp [List.filter_cons, haL, ih, List.lookup_cons]
    · by_cases haL : a < L
      · simp [List.filter_cons, haL, List.lookup_cons, beq_false_of_ne hk, ih]
      · simp [List.filter_cons, haL, ih, List.lookup_cons, beq_false_of_ne hk]

/-! ### Claims -/

/-- C1: processing a section header with non-empty text at level `L`
removes every hierarchy entry at level `≥ L`, inserts `L ↦ header_text`
and preserves every entry at level `< L`. -/
theorem header_level_update (h : Hierarchy) (L : Nat) (t : String)
    (ht : t ≠ "") (k : Nat) :
    (applyHeader h L t).lookup k =
      if k < L then h.lookup k else if k = L then some t else none := by
  rw [applyHeader, if_neg ht, List.lookup_append, lookup_filter_lt]
  by_cases hkL : k < L
  · have hne : k ≠ L := by omega
    simp [hkL, List.lookup_cons, beq_false_of_ne hne]
  · by_cases hk : k = L
    · subst hk; simp [hkL, List.lookup_cons]
    · simp [hkL, hk, List.lookup_cons, beq_false_of_ne hk]

/-- Witness for C1 at the spec's example: starting from
`{0:"Doc",1:"A",2:"A.1"}`, a level-1 header "B" maps 0 to "Doc",
1 to "B" and drops level 2. -/
theorem header_level_update_witness :
    (("B" : String) ≠ "") ∧
    (applyHeader [(0, "Doc"), (1, "A"), (2, "A.1")] 1 "B").lookup 0 = some "Doc" ∧
    (applyHeader [(0, "Doc"), (1, "A"), (2, "A.1")] 1 "B").lookup 1 = some "B" ∧
    (applyHeader [(0, "Doc"), (1, "A"), (2, "A.1")] 1 "B").lookup 2 = none := by
  refine ⟨by decide, ?_, ?_, ?_⟩ <;>
    rw [header_level_update _ _ _ (by decide)] <;> decide

/-- C2 counterexample: on a zero-hit result set, `hybrid_search` does
not return the empty string — it returns its fixed summary block. -/
theorem empty_hits_counterexample :
    hybridSearch "q" 3 (3/10) [] ≠ "" := by decide

/-- C2 as amended: on a zero-hit result set neither retrieval entry
point raises (both are total); `search_context` returns the empty
string, while `hybrid_search` returns the fixed, non-empty zero-result
summary block. -/
theorem empty_hits_result (q : String) (limit : Nat) (b : ℚ) :
    searchContext [] = "" ∧
    hybridSearch q limit b [] =
      "## Podsumowanie znalezionych źródeł (znaleziono 0 wyników):\nLista znalezionych źródeł:\n\nSzczegółowe konteksty poniżej:\n\n" ∧
    hybridSearch q limit b [] ≠ "" := by
  have h2 : hybridSearch q limit b [] =
      "## Podsumowanie znalezionych źródeł (znaleziono 0 wyników):\nLista znalezionych źródeł:\n\nSzczegółowe konteksty poniżej:\n\n" := by
    simp only [hybridSearch, List.map_nil, List.insertionSort, List.take_nil]
    rfl
  refine ⟨rfl, h2, ?_⟩
  rw [h2]
  decide

/-- C3 counterexample: in the two-page scenario, chunk 1 does not carry
`section_title = "Details"` with `parent_context = ""`. -/
theorem two_page_scenario_counterexample :
    ((processDocument exItems "doc.pdf" (fun _ => "")).map
      (fun c => (c.sectionTitle, c.metadata.parentContext)))[1]? ≠
      some ("Details", "") := by decide

/-- C3 as amended: the two-page scenario produces exactly 2 chunks;
chunk 0 has section title "Intro" on page 1 with empty parent context,
and chunk 1 has section title "Intro > Details" on page 2 with parent
context "Intro" — for any context annotator. -/
theorem two_page_scenario (ctxAnn : String → String) :
    (processDocument exItems "doc.pdf" ctxAnn).map chunkCore =
      [("Intro\n\nP1", "Intro", 0, "", 1),
       ("Details\n\nP2\n\nP3", "Intro > Details", 1, "Intro", 2)] := by
  have h := createChunks_core (extractItemsByPage exItems) "doc.pdf"
    ctxAnn (fun _ => "")
  rw [processDocument, h]
  decide

/-- C5 counterexample: equal base scores and a strictly larger keyword
overlap do not force a larger final score — a large context overlap on
the other hit can dominate. -/
theorem keyword_boost_counterexample :
    hitA.score = hitB.score ∧
    keywordOverlap (queryWordSet exQuery) hitB <
      keywordOverlap (queryWordSet exQuery) hitA ∧
    (0 : ℚ) < 3/10 ∧
    finalScore exQuery (3/10) hitA < finalScore exQuery (3/10) hitB := by
  have hA : keywordOverlap (queryWordSet exQuery) hitA = 1 := by decide
  have hB : keywordOverlap (queryWordSet exQuery) hitB = 0 := by decide
  have cA : contextOverlap (queryWordSet exQuery) hitA = 0 := by decide
  have cB : contextOverlap (queryWordSet exQuery) hitB = 4 := by decide
  refine ⟨rfl, by rw [hA, hB]; exact Nat.zero_lt_one, by norm_num, ?_⟩
  simp only [finalScore]
  rw [hA, hB, cA, cB]
  norm_num [hitA, hitB]

/-- C5 as amended: with equal base scores, a strictly larger keyword
overlap and a context overlap at least as large, every positive keyword
boost yields a strictly larger final score. -/
theorem keyword_boost_monotone (q : String) (b : ℚ) (A B : Hit)
    (hbase : A.score = B.score)
    (hkw : keywordOverlap (queryWordSet q) B < keywordOverlap (queryWordSet q) A)
    (hctx : contextOverlap (queryWordSet q) B ≤ contextOverlap (queryWordSet q) A)
    (hb : 0 < b) :
    finalScore q b B < finalScore q b A := by
  simp only [finalScore]
  rw [hbase]
  have h1 : (keywordOverlap (queryWordSet q) B : ℚ) <
      keywordOverlap (queryWordSet q) A := by exact_mod_cast hkw
  have h2 : (contextOverlap (queryWordSet q) B : ℚ) ≤
      contextOverlap (queryWordSet q) A := by exact_mod_cast hctx
  have hmul : ((keywordOverlap (queryWordSet q) B : ℚ) +
      (contextOverlap (queryWordSet q) B : ℚ) * (1/2)) * b <
      ((keywordOverlap (queryWordSet q) A : ℚ) +
      (contextOverlap (queryWordSet q) A : ℚ) * (1/2)) * b := by
    apply mul_lt_mul_of_pos_right _ hb
    linarith
  linarith

/-- Witness for C5 as amended at concrete hits. -/
theorem keyword_boost_monotone_witness :
    finalScore exQuery (3/10) hitC < finalScore exQuery (3/10) hitA :=
  keyword_boost_monotone exQuery (3/10) hitA hitC rfl (by decide) (by decide)
    (by norm_num)

/-- C9: upserting an empty chunk list is a no-op — the collection is
unchanged, the keyword annotator receives no input and the vector store
is not invoked. -/
theorem upsert_empty_noop (jobId : String) (kwAnn : String → List String)
    (store : List StoredRecord) :
    upsertChunks jobId [] kwAnn store =
      { store := store, annInputs := [], addCalled := false } := rfl

/-- C6: every chunk of a batch is stored with keywords computed from the
raw chunk content and with the embedded document text equal to
`"Context: {context}\n\nContent: {content}"` when the chunk's metadata
context is non-empty, else the raw content. -/
theorem upsert_embedding_contract (jobId : String)
    (kwAnn : String → List String) (chunks : List DocumentChunk)
    (store : List StoredRecord) (c : DocumentChunk) (hc : c ∈ chunks) :
    (prepareRecord jobId kwAnn c).keywords = kwAnn c.content ∧
    (prepareRecord jobId kwAnn c).document =
      (if c.metadata.context ≠ "" then
        "Context: " ++ c.metadata.context ++ "\n\nContent: " ++ c.content
       else c.content) ∧
    prepareRecord jobId kwAnn c ∈ (upsertChunks jobId chunks kwAnn store).store := by
  have hne : chunks ≠ [] := by rintro rfl; simp at hc
  refine ⟨rfl, rfl, ?_⟩
  rw [upsertChunks, if_neg hne]
  exact List.mem_append_right _ (List.mem_map_of_mem _ hc)

/-- Witness for C6 on the second chunk of the two-page scenario. -/
theorem upsert_embedding_contract_witness :
    (prepareRecord "job" exKwAnn exChunk1).keywords = exKwAnn exChunk1.content ∧
    (prepareRecord "job" exKwAnn exChunk1).document =
      (if exChunk1.metadata.context ≠ "" then
        "Context: " ++ exChunk1.metadata.context ++ "\n\nContent: " ++
          exChunk1.content
       else exChunk1.content) ∧
    prepareRecord "job" exKwAnn exChunk1 ∈
      (upsertChunks "job" [exChunk1] exKwAnn []).store :=
  upsert_embedding_contract "job" exKwAnn [exChunk1] [] exChunk1 (by decide)

/-- C8: a failing context-annotator call degrades to the empty string,
and the chunks of a document are still produced — their count and their
annotator-independent cores are the same as with any other annotator. -/
theorem annotator_failure_degrades :
    (∀ (content e : String),
      generateSectionContext content (Except.error e) = "") ∧
    (∀ (items : List ItemData) (filename : String)
      (errMsg : String → String) (g : String → String),
      (createChunksFromPages items filename
          (fun c => generateSectionContext c (Except.error (errMsg c)))).map
          chunkCore =
        (createChunksFromPages items filename g).map chunkCore) := by
  constructor
  · intro content e
    unfold generateSectionContext
    split <;> rfl
  · intro items filename errMsg g
    exact createChunks_core items filename _ g

/-- Every chunk emitted for a page's sections is built by `buildChunk`
from one of the page's section blocks. -/
theorem mem_chunksOfSections (f : String) (a : String → String) (p : Nat) :
    ∀ (secs : List SectionBlock) (idx : Nat) (c : DocumentChunk),
      c ∈ (chunksOfSections f a p secs idx).1 →
      ∃ i s, c = buildChunk f a p i s
  | [], _, c => by simp [chunksOfSections]
  | s :: rest, idx, c => by
    by_cases hs : pyStrip s.content = ""
    · simpa [chunksOfSections, hs] using
        mem_chunksOfSections f a p rest idx c
    · intro hc
      simp only [chunksOfSections, if_neg hs, List.mem_cons] at hc
      rcases hc with rfl | hc
      · exact ⟨idx, s, rfl⟩
      · exact mem_chunksOfSections f a p rest (idx + 1) c hc

/-- Every chunk of a processed document is built by `buildChunk`. -/
theorem mem_chunksGo (f : String) (a : String → String)
    (items : List ItemData) :
    ∀ (pages : List Nat) (idx : Nat) (c : DocumentChunk),
      c ∈ chunksGo f a items pages idx →
      ∃ p i s, c = buildChunk f a p i s
  | [], _, c => by simp [chunksGo]
  | p :: ps, idx, c => by
    intro hc
    simp only [chunksGo, List.mem_append] at hc
    rcases hc with hc | hc
    · obtain ⟨i, s, hcs⟩ := mem_chunksOfSections f a p _ idx c hc
      exact ⟨p, i, s, hcs⟩
    · exact mem_chunksGo f a items ps _ c hc

/-- The accumulated `full_context` equals the concatenation of its two
optional lines. -/
theorem fullContextOf_eq (pc sc : String) :
    fullContextOf pc sc =
      (if pc = "" then "" else "Rozdział nadrzędny: " ++ pc ++ "\n") ++
      (if sc = "" then "" else "Kontekst sekcji: " ++ sc) := by
  rw [fullContextOf]
  by_cases hpc : pc = "" <;> by_cases hsc : sc = "" <;> simp [hpc, hsc]

/-- C4 counterexample: a chunk with non-empty parent context and a
non-empty generated context is stored with the Polish prefixes, not
with `"Parent chapter: ..."` / `"Section context: ..."`. -/
theorem context_format_counterexample :
    ((processDocument exItems "doc.pdf" exCtxAnn).map
        (fun c => c.metadata.context))[1]? =
      some "Rozdział nadrzędny: Intro\nKontekst sekcji: CTX" ∧
    ("Rozdział nadrzędny: Intro\nKontekst sekcji: CTX" : String) ≠
      "Parent chapter: Intro\nSection context: CTX" := by decide

/-- C4 as amended: every built chunk's `metadata.context` equals
`"Rozdział nadrzędny: {parent_context}\n"` (included only when the
parent context is non-empty) followed by
`"Kontekst sekcji: {generated_context}"` (included only when the
generated context is non-empty). -/
theorem context_format (items : List ItemData) (filename : String)
    (ctxAnn : String → String) (c : DocumentChunk)
    (hc : c ∈ createChunksFromPages items filename ctxAnn) :
    c.metadata.context =
      (if c.metadata.parentContext = "" then ""
       else "Rozdział nadrzędny: " ++ c.metadata.parentContext ++ "\n") ++
      (if ctxAnn c.content = "" then ""
       else "Kontekst sekcji: " ++ ctxAnn c.content) := by
  obtain ⟨p, i, s, rfl⟩ := mem_chunksGo filename ctxAnn items
    (sortedPages items) 0 c hc
  simpa [buildChunk] using
    fullContextOf_eq (buildParentContext s.hierarchy) (ctxAnn s.content)

/-- Witness for C4 as amended on the second chunk of the two-page
scenario. -/
theorem context_format_witness :
    exChunk1.metadata.context =
      (if exChunk1.metadata.parentContext = "" then ""
       else "Rozdział nadrzędny: " ++ exChunk1.metadata.parentContext ++ "\n") ++
      (if exCtxAnn exChunk1.content = ""
       then "" else "Kontekst sekcji: " ++ exCtxAnn exChunk1.content) :=
  context_format (extractItemsByPage exItems) "doc.pdf" exCtxAnn exChunk1
    (by decide)

/-- The indices of the chunks emitted for one page's sections are the
consecutive naturals starting at the incoming index, and the final index
advances by their number. -/
theorem chunksOfSections_idx (f : String) (a : String → String) (p : Nat) :
    ∀ (secs : List SectionBlock) (idx : Nat),
      (chunksOfSections f a p secs idx).1.map (·.chunkIndex) =
        List.range' idx (chunksOfSections f a p secs idx).1.length ∧
      (chunksOfSections f a p secs idx).2 =
        idx + (chunksOfSections f a p secs idx).1.length
  | [], idx => by simp [chunksOfSections]
  | s :: rest, idx => by
    by_cases hs : pyStrip s.content = ""
    · simpa [chunksOfSections, hs] using chunksOfSections_idx f a p rest idx
    · have ih := chunksOfSections_idx f a p rest (idx + 1)
      simp only [chunksOfSections, if_neg hs, List.map_cons, List.length_cons]
      constructor
      · rw [ih.1]
        rfl
      · rw [ih.2]
        omega

/-- The indices of all chunks of a document are the consecutive naturals
starting at the incoming index. -/
theorem chunksGo_idx (f : String) (a : String → String)
    (items : List ItemData) :
    ∀ (pages : List Nat) (idx : Nat),
      (chunksGo f a items pages idx).map (·.chunkIndex) =
        List.range' idx (chunksGo f a items pages idx).length
  | [], idx => by simp [chunksGo]
  | p :: ps, idx => by
    have hsec := chunksOfSections_idx f a p
      (groupItemsBySection (itemsOnPage items p) p) idx
    have ih := chunksGo_idx f a items ps
      ((chunksOfSections f a p (groupItemsBySection (itemsOnPage items p) p) idx).2)
    simp only [chunksGo, List.map_append, List.length_append]
    rw [hsec.1, ih, hsec.2]
    simp [Nat.add_comm]

/-- Every emitted chunk for one page's sections has non-blank content. -/
theorem chunksOfSections_nonblank (f : String) (a : String → String)
    (p : Nat) :
    ∀ (secs : List SectionBlock) (idx : Nat) (c : DocumentChunk),
      c ∈ (chunksOfSections f a p secs idx).1 → pyStrip c.content ≠ ""
  | [], _, c => by simp [chunksOfSections]
  | s :: rest, idx, c => by
    by_cases hs : pyStrip s.content = ""
    · simpa [chunksOfSections, hs] using
        chunksOfSections_nonblank f a p rest idx c
    · intro hc
      simp only [chunksOfSections, if_neg hs, List.mem_cons] at hc
      rcases hc with rfl | hc
      · simpa [buildChunk] using hs
      · exact chunksOfSections_nonblank f a p rest (idx + 1) c hc

/-- Every chunk of a document has non-blank content. -/
theorem chunksGo_nonblank (f : String) (a : String → String)
    (items : List ItemData) :
    ∀ (pages : List Nat) (idx : Nat) (c : DocumentChunk),
      c ∈ chunksGo f a items pages idx → pyStrip c.content ≠ ""
  | [], _, c => by simp [chunksGo]
  | p :: ps, idx, c => by
    intro hc
    simp only [chunksGo, List.mem_append] at hc
    rcases hc with hc | hc
    · exact chunksOfSections_nonblank f a p _ idx c hc
    · exact chunksGo_nonblank f a items ps _ c hc

/-- C10: chunk indices are contiguous from 0 across all pages of the
document — position `i` carries `chunk_index = i` — and every returned
chunk has non-blank content. -/
theorem chunk_indices_contiguous (items : List ItemData) (filename : String)
    (ctxAnn : String → String) (i : Nat)
    (hi : i < (createChunksFromPages items filename ctxAnn).length) :
    ((createChunksFromPages items filename ctxAnn).map
      (·.chunkIndex))[i]? = some i ∧
    ∀ c ∈ createChunksFromPages items filename ctxAnn,
      pyStrip c.content ≠ "" := by
  constructor
  · rw [createChunksFromPages, chunksGo_idx]
    rw [List.getElem?_eq_getElem (by simpa using hi)]
    simp
  · intro c hc
    exact chunksGo_nonblank filename ctxAnn items (sortedPages items) 0 c hc

/-- Witness for C10 at position 1 of the two-page scenario. -/
theorem chunk_indices_contiguous_witness :
    1 < (createChunksFromPages (extractItemsByPage exItems) "doc.pdf"
      exCtxAnn).length ∧
    (((createChunksFromPages (extractItemsByPage exItems) "doc.pdf"
      exCtxAnn).map (·.chunkIndex))[1]? = some 1 ∧
    ∀ c ∈ createChunksFromPages (extractItemsByPage exItems) "doc.pdf"
      exCtxAnn, pyStrip c.content ≠ "") :=
  ⟨by decide,
    chunk_indices_contiguous (extractItemsByPage exItems) "doc.pdf"
      exCtxAnn 1 (by decide)⟩

/-- Ordered insertion of a pair by its key commutes with projecting
the keys. -/
theorem map_fst_orderedInsert (p : Nat × String) :
    ∀ l : List (Nat × String),
      (List.orderedInsert (fun a b : Nat × String => a.1 ≤ b.1) p l).map Prod.fst =
        List.orderedInsert (· ≤ ·) p.1 (l.map Prod.fst)
  | [] => rfl
  | q :: l => by
    simp only [List.orderedInsert, List.map_cons]
    by_cases h : p.1 ≤ q.1
    · simp [h]
    · simp [h, map_fst_orderedInsert p l]

/-- Sorting pairs by their keys then projecting the keys equals sorting
the projected keys. -/
theorem map_fst_sortPairs :
    ∀ h : Hierarchy,
      (hierarchyEntriesAsc h).map Prod.fst =
        List.insertionSort (· ≤ ·) (h.map Prod.fst)
  | [] => rfl
  | p :: l => by
    simp only [hierarchyEntriesAsc, List.insertionSort, List.map_cons]
    rw [map_fst_orderedInsert]
    rw [show List.insertionSort (fun p q : Nat × String => p.1 ≤ q.1) l =
      hierarchyEntriesAsc l from rfl, map_fst_sortPairs l]

/-- In a duplicate-free association list, lookup finds the value of any
of its pairs. -/
theorem lookup_of_mem_nodup :
    ∀ (h : Hierarchy), (h.map Prod.fst).Nodup →
      ∀ k v, (k, v) ∈ h → h.lookup k = some v
  | [], _, k, v, hm => by simp at hm
  | (a, b) :: tl, hnd, k, v, hm => by
    simp only [List.map_cons, List.nodup_cons] at hnd
    rcases List.mem_cons.mp hm with heq | hmem
    · obtain ⟨rfl, rfl⟩ := Prod.mk.injEq k v a b ▸ heq
      simp [List.lookup_cons]
    · have hk : k ≠ a := by
        rintro rfl
        exact hnd.1 (by simpa using List.mem_map_of_mem Prod.fst hmem)
      simp only [List.lookup_cons, beq_false_of_ne hk]
      exact lookup_of_mem_nodup tl hnd.2 k v hmem

/-- A list with at most one element loses everything under `dropLast`. -/
theorem dropLast_of_length_le_one (l : List String) (hl : l.length ≤ 1) :
    l.dropLast = [] := by
  cases l with
  | nil => rfl
  | cons x t =>
    cases t with
    | nil => rfl
    | cons y t2 => simp at hl

/-- C7: for every non-empty hierarchy mapping (duplicate-free keys),
the section title is the titles joined by " > " in ascending level
order, and the parent context is the same join excluding the deepest
level, empty whenever the hierarchy has at most one entry. -/
theorem hierarchy_join_titles (h : Hierarchy) (hne : h ≠ [])
    (hnd : (h.map Prod.fst).Nodup) :
    buildSectionTitle h =
      String.intercalate " > " ((hierarchyEntriesAsc h).map Prod.snd) ∧
    buildParentContext h =
      String.intercalate " > " (((hierarchyEntriesAsc h).map Prod.snd).dropLast) ∧
    (h.length ≤ 1 → buildParentContext h = "") := by
  have hkeys : sortedKeys h = (hierarchyEntriesAsc h).map Prod.fst := by
    rw [sortedKeys, List.dedup_eq_self.mpr hnd, ← map_fst_sortPairs h]
  have hlook : ∀ p ∈ hierarchyEntriesAsc h,
      ((fun k => (h.lookup k).getD "") ∘ Prod.fst) p = Prod.snd p := by
    intro p hp
    have hmem : p ∈ h := (List.perm_insertionSort _ h).subset hp
    show (h.lookup p.1).getD "" = p.2
    rw [lookup_of_mem_nodup h hnd p.1 p.2 hmem]
    rfl
  have hmap : (sortedKeys h).map (fun k => (h.lookup k).getD "") =
      (hierarchyEntriesAsc h).map Prod.snd := by
    rw [hkeys, List.map_map]
    exact List.map_congr_left hlook
  have hparent1 : h.length ≤ 1 → buildParentContext h = "" := by
    intro hlen
    rw [buildParentContext, if_pos (Or.inr hlen)]
  refine ⟨?_, ?_, hparent1⟩
  · rw [buildSectionTitle, if_neg hne, hmap]
  · by_cases hlen : h.length ≤ 1
    · rw [hparent1 hlen]
      have hl : ((hierarchyEntriesAsc h).map Prod.snd).length ≤ 1 := by
        rw [List.length_map, hierarchyEntriesAsc, List.length_insertionSort]
        exact hlen
      rw [dropLast_of_length_le_one _ hl]
      rfl
    · rw [buildParentContext, if_neg (by simp [hne, hlen])]
      rw [hkeys, ← List.map_dropLast, List.map_map]
      rw [List.map_congr_left (fun p hp =>
        hlook p (List.mem_of_mem_dropLast hp))]
      rw [List.map_dropLast]

/-- Witness for C7 at the spec example `{0:"Doc",1:"Ch1",2:"Sec1"}`. -/
theorem hierarchy_join_titles_witness :
    buildSectionTitle exHier = "Doc > Ch1 > Sec1" ∧
    buildParentContext exHier = "Doc > Ch1" := by
  have h := hierarchy_join_titles exHier (by decide) (by decide)
  exact ⟨h.1.trans (by decide), h.2.1.trans (by decide)⟩

end Churn
